import Mathlib

/-!
Verification development for the postgres-to-sqlite DDL translation
repository.  The TypeScript sources are embedded shallowly:

* `src/unnamed/part_011` (poc-json-schema `check-analyzer.ts`,
  `converter.ts`, `type-map.ts`): the constraint-expression classifier
  `analyzeCheck`, the foreign-key extractor `extractForeignKey`, the
  type mapper `mapType` and the `PgToJsonSchemaConverter`.
* `src/poc-json-schema/src/example.ts` (the `to-sqlite` chunk): the
  reverse emitter `jsonSchemaToSqlite` and its `$ref` resolver
  `resolveType`.
* `src/poc-deparser/src/sqlite-deparser.ts`: the synthesized
  type-validation CHECK clauses of `ColumnDef` and the foreign-key
  branch of `Constraint`.

JavaScript `undefined` is modelled with `Option`, JS numbers with `ℚ`,
and the loosely tagged AST nodes with the inductive `WNode` below.  The
source's redundant defensive parses of alternate AST serialisations
(e.g. `c.ival.ival` versus a bare numeric `c.ival`) collapse onto the
single canonical node shape emitted by the upstream parser; every such
collapse is noted at the definition it concerns.
-/

namespace PgSqlite

/-- Payload of an `A_Const` node.  The source accepts both the nested
(`c.ival.ival`) and the flat (`c.ival : number`) serialisations and the
empty-object encodings of `0` / `false`; all encodings of one constant
extract to the same value, so one constructor per constant kind
suffices. -/
inductive AConstV where
  | ival (i : Int)
  | fval (q : ℚ)
  | sval (s : String)
  | boolval (b : Bool)
deriving DecidableEq, Repr

/-- A loosely tagged AST node as inspected by `check-analyzer.ts`,
`converter.ts` and the deparser: each constructor stands for an object
whose single recognised key selects the shape (`{A_Expr: …}`,
`{BoolExpr: …}`, `{List: {items: …}}`, `{ColumnRef: {fields: …}}`,
`{A_Const: …}`, `{String: {sval: …}}`, `{FuncCall: …}`,
`{SQLValueFunction: {op: …}}`, `{TypeCast: {arg: …}}`).  `emptyObj` is
the empty object `{}` and `otherNode` any other non-empty object none
of the analyzers recognise. -/
inductive WNode where
  | aexpr (kind : Option String) (name : List WNode)
      (lexpr : Option WNode) (rexpr : Option WNode)
  | boolexpr (boolop : Option String) (args : Option (List WNode))
  | listNode (items : List WNode)
  | columnRef (fields : List WNode)
  | aconst (v : AConstV)
  | strNode (sval : String)
  | funcCall (funcname : List WNode) (args : List WNode)
  | sqlValueFunction (op : String)
  | typeCast (arg : Option WNode)
  | emptyObj
  | otherNode

/-- The value universe of `extractConstValue`: a JS number, string or
boolean (`null` is `Option.none` at the use sites). -/
inductive JsVal where
  | num (q : ℚ)
  | str (s : String)
  | bool (b : Bool)
deriving DecidableEq, Repr

/-- Result of `unwrapExpr`: either the inner `A_Expr` object, the inner
`BoolExpr` object, the `List.items` array, the original node when no
wrapper key is present, or JS `undefined` (`unone`). -/
inductive UNode where
  | ua (kind : Option String) (name : List WNode)
      (lexpr : Option WNode) (rexpr : Option WNode)
  | ub (boolop : Option String) (args : Option (List WNode))
  | uitems (items : List WNode)
  | uorig (w : WNode)
  | unone

/-- `unwrapExpr` from `check-analyzer.ts`: peel one wrapper key off the
node (`A_Expr`, `BoolExpr` or `List.items`), else return it as is;
`undefined` stays `undefined`. -/
def unwrapExpr : Option WNode → UNode
  | some (.aexpr k n l r) => .ua k n l r
  | some (.boolexpr b a) => .ub b a
  | some (.listNode items) => .uitems items
  | some w => .uorig w
  | none => .unone

/-- Field access `expr.lexpr` on the unwrapped value (only the inner
`A_Expr` object carries it). -/
def UNode.lexprF : UNode → Option WNode
  | .ua _ _ l _ => l
  | _ => none

/-- Field access `expr.rexpr` on the unwrapped value. -/
def UNode.rexprF : UNode → Option WNode
  | .ua _ _ _ r => r
  | _ => none

/-- Field access `expr.kind` on the unwrapped value. -/
def UNode.kindF : UNode → Option String
  | .ua k _ _ _ => k
  | _ => none

/-- Field access `expr.boolop` on the unwrapped value (only the inner
`BoolExpr` object carries it). -/
def UNode.boolopF : UNode → Option String
  | .ub b _ => b
  | _ => none

/-- Field access `expr.args` on the unwrapped value. -/
def UNode.argsF : UNode → Option (List WNode)
  | .ub _ a => a
  | _ => none

/-- `getOperatorName`: `expr.name[0]?.String?.sval` when that is a
non-empty string (JS truthiness), otherwise `expr.kind || null`. -/
def getOperatorName (u : UNode) : Option String :=
  match u with
  | .ua k n _ _ =>
    match n.head? with
    | some (.strNode s) =>
      if s ≠ "" then some s
      else match k with
        | some k' => if k' ≠ "" then some k' else none
        | none => none
    | _ =>
      match k with
      | some k' => if k' ≠ "" then some k' else none
      | none => none
  | _ => none

/-- `extractColumnRef`: `node?.ColumnRef?.fields[0]?.String?.sval ||
null` (an empty `sval` is falsy and yields `null`). -/
def extractColumnRef : Option WNode → Option String
  | some (.columnRef fields) =>
    match fields.head? with
    | some (.strNode s) => if s ≠ "" then some s else none
    | _ => none
  | _ => none

/-- `extractConstValue` on an `A_Const` payload. -/
def AConstV.toJsVal : AConstV → JsVal
  | .ival i => .num (i : ℚ)
  | .fval q => .num q
  | .sval s => .str s
  | .boolval b => .bool b

/-- `extractConstValue`: the constant carried by an `A_Const` node,
`null` for anything else (including `undefined`). -/
def extractConstValue : Option WNode → Option JsVal
  | some (.aconst v) => some v.toJsVal
  | _ => none

/-- `unwrapBoolArgs`: when the unwrapped node has truthy `boolop` and an
`args` array, unwrap each argument; otherwise the empty list. -/
def unwrapBoolArgs (u : UNode) : List UNode :=
  match u with
  | .ub (some bo) (some args) =>
    if bo ≠ "" then args.map (fun a => unwrapExpr (some a)) else []
  | _ => []

/-- `isRangeCheck`: a `>=`/`<=`/`>`/`<` comparison whose left operand is
a reference to `colName`, or (simplified detection in the source) any
`AND_EXPR` boolean expression regardless of the columns it mentions. -/
def isRangeCheck (expr : Option WNode) (colName : String) : Bool :=
  let u := unwrapExpr expr
  let op := getOperatorName u
  if op = some ">=" ∨ op = some "<=" ∨ op = some ">" ∨ op = some "<" then
    decide (extractColumnRef u.lexprF = some colName)
  else if u.boolopF = some "AND_EXPR" then
    true
  else
    false

/-- One comparison's contribution to `extractMin`: on `>=`/`>` with a
numeric right constant, return the bound, adding `1` for the strict
operator (unconditionally, with no knowledge of the column type). -/
def minFromCmp (u : UNode) : Option ℚ :=
  let op := getOperatorName u
  if op = some ">=" ∨ op = some ">" then
    match extractConstValue u.rexprF with
    | some (.num q) => some (if op = some ">" then q + 1 else q)
    | _ => none
  else none

/-- `extractMin` from `check-analyzer.ts`: the top-level comparison's
lower bound, else the first lower bound found among the arguments of an
`AND_EXPR`. -/
def extractMin (expr : Option WNode) : Option ℚ :=
  let u := unwrapExpr expr
  match minFromCmp u with
  | some q => some q
  | none =>
    if u.boolopF = some "AND_EXPR" then
      (unwrapBoolArgs u).findSome? minFromCmp
    else none

/-- One comparison's contribution to `extractMax`: on `<=`/`<` with a
numeric right constant, return the bound, subtracting `1` for the
strict operator (again without consulting any column type). -/
def maxFromCmp (u : UNode) : Option ℚ :=
  let op := getOperatorName u
  if op = some "<=" ∨ op = some "<" then
    match extractConstValue u.rexprF with
    | some (.num q) => some (if op = some "<" then q - 1 else q)
    | _ => none
  else none

/-- `extractMax` from `check-analyzer.ts`. -/
def extractMax (expr : Option WNode) : Option ℚ :=
  let u := unwrapExpr expr
  match maxFromCmp u with
  | some q => some q
  | none =>
    if u.boolopF = some "AND_EXPR" then
      (unwrapBoolArgs u).findSome? maxFromCmp
    else none

/-- Does `expr.rexpr` carry a `{List: …}` wrapper? (`expr?.rexpr?.List`
truthiness test of `isEnumCheck`). -/
def rexprIsList (u : UNode) : Bool :=
  match u.rexprF with
  | some (.listNode _) => true
  | _ => false

/-- `isEnumCheck`: an `AEXPR_IN` node with a list right operand whose
left operand references `colName`, or (simplified detection) any
`OR_EXPR` boolean expression. -/
def isEnumCheck (expr : Option WNode) (colName : String) : Bool :=
  let u := unwrapExpr expr
  if u.kindF = some "AEXPR_IN" ∧ rexprIsList u then
    decide (extractColumnRef u.lexprF = some colName)
  else if u.boolopF = some "OR_EXPR" then
    true
  else
    false

/-- `extractValues`: constants of an `AEXPR_IN` list, then constants on
the right of `=` comparisons inside an `OR_EXPR` chain. -/
def extractValues (expr : Option WNode) : List JsVal :=
  let u := unwrapExpr expr
  let inVals : List JsVal :=
    if u.kindF = some "AEXPR_IN" then
      match u.rexprF with
      | some (.listNode items) =>
        items.filterMap (fun item => extractConstValue (some item))
      | _ => []
    else []
  let orVals : List JsVal :=
    match u with
    | .ub (some "OR_EXPR") (some args) =>
      args.filterMap (fun arg =>
        let w := unwrapExpr (some arg)
        if getOperatorName w = some "=" then
          extractConstValue w.rexprF
        else none)
    | _ => []
  inVals ++ orVals

/-- `isPatternCheck`: a `~` comparison whose left operand references
`colName`. -/
def isPatternCheck (expr : Option WNode) (colName : String) : Bool :=
  let u := unwrapExpr expr
  if getOperatorName u = some "~" then
    decide (extractColumnRef u.lexprF = some colName)
  else false

/-- `extractPattern`: the string right operand of a `~` comparison. -/
def extractPattern (expr : Option WNode) : Option String :=
  let u := unwrapExpr expr
  if getOperatorName u = some "~" then
    match extractConstValue u.rexprF with
    | some (.str s) => some s
    | _ => none
  else none

/-- The `ValidationRules` record returned by `analyzeCheck`; a key is
`some` exactly when the JS object carries it. -/
structure ValidationRules where
  minimum : Option ℚ := none
  maximum : Option ℚ := none
  enumVals : Option (List JsVal) := none
  pattern : Option String := none
deriving DecidableEq, Repr

/-- `analyzeCheck` from `check-analyzer.ts`: try range, then membership,
then pattern classification; `none` is the opaque outcome. -/
def analyzeCheck (expr : Option WNode) (colName : String) :
    Option ValidationRules :=
  let range : Option ValidationRules :=
    if isRangeCheck expr colName then
      let mn := extractMin expr
      let mx := extractMax expr
      if mn.isSome ∨ mx.isSome then
        some { minimum := mn, maximum := mx }
      else none
    else none
  match range with
  | some r => some r
  | none =>
    let en : Option ValidationRules :=
      if isEnumCheck expr colName then
        let vs := extractValues expr
        if vs ≠ [] then some { enumVals := some vs } else none
      else none
    match en with
    | some r => some r
    | none =>
      if isPatternCheck expr colName then
        match extractPattern expr with
        | some p => if p ≠ "" then some { pattern := some p } else none
        | none => none
      else none

/-- JS `String#toLowerCase` over the character list (ASCII case
folding, as in every name this code lowercases). -/
def jsToLower (s : String) : String := String.mk (s.data.map Char.toLower)

/-- JS `String#toUpperCase` over the character list. -/
def jsToUpper (s : String) : String := String.mk (s.data.map Char.toUpper)

/-- JS `String#trim` over the character list. -/
def jsTrim (s : String) : String :=
  String.mk
    (((s.data.dropWhile Char.isWhitespace).reverse.dropWhile
      Char.isWhitespace).reverse)

/-- Split a character list on `/`, keeping empty segments. -/
def splitOnSlashAux : List Char → List Char → List String
  | [], acc => [String.mk acc.reverse]
  | c :: rest, acc =>
    if c = '/' then String.mk acc.reverse :: splitOnSlashAux rest []
    else splitOnSlashAux rest (c :: acc)

/-- Split a string on `/` (the shape `String.splitOn "/"` produces). -/
def splitOnSlash (s : String) : List String := splitOnSlashAux s.data []

/-- Does `s` start with `p`? (character-list prefix test). -/
def strStartsWith (s p : String) : Bool := p.data.isPrefixOf s.data

/-- Association-list read, modelling JS object property access
(`obj[key]`); JS objects have unique keys, so the first match is the
binding. -/
def lookupKV {β : Type} : List (String × β) → String → Option β
  | [], _ => none
  | (k', v) :: rest, k => if k' = k then some v else lookupKV rest k

/-- Association-list write, modelling JS object property assignment
(`obj[key] = v`): overwrite in place when the key exists, append
otherwise. -/
def putKV {β : Type} : List (String × β) → String → β → List (String × β)
  | [], k, v => [(k, v)]
  | (k', v') :: rest, k, v =>
    if k' = k then (k, v) :: rest else (k', v') :: putKV rest k v

/-- `JsonSchemaType` from the poc-json-schema `type-map.ts`: an optional
scalar type name, format, maximum length, multiple-of step, and nested
item rule for arrays. -/
inductive JsonSchemaType where
  | mk (typ : Option String) (format : Option String)
      (maxLength : Option Int) (multipleOf : Option ℚ)
      (items : Option JsonSchemaType)

/-- The `type` component of a `JsonSchemaType`. -/
def JsonSchemaType.typ : JsonSchemaType → Option String
  | .mk t _ _ _ _ => t

/-- The `format` component of a `JsonSchemaType`. -/
def JsonSchemaType.format : JsonSchemaType → Option String
  | .mk _ f _ _ _ => f

/-- The `maxLength` component of a `JsonSchemaType`. -/
def JsonSchemaType.maxLength : JsonSchemaType → Option Int
  | .mk _ _ ml _ _ => ml

/-- The `multipleOf` component of a `JsonSchemaType`. -/
def JsonSchemaType.multipleOf : JsonSchemaType → Option ℚ
  | .mk _ _ _ mo _ => mo

/-- The `items` component of a `JsonSchemaType`. -/
def JsonSchemaType.items : JsonSchemaType → Option JsonSchemaType
  | .mk _ _ _ _ i => i

/-- A `JsonSchemaType` carrying only a scalar type name. -/
def scalarType (t : String) : JsonSchemaType :=
  .mk (some t) none none none none

/-- A `JsonSchemaType` carrying a type name and a format. -/
def formatType (t f : String) : JsonSchemaType :=
  .mk (some t) (some f) none none none

/-- The `TYPE_MAP` table of the poc-json-schema `type-map.ts`, in source
order. -/
def TYPE_MAP : List (String × JsonSchemaType) :=
  [ ("varchar", scalarType "string")
  , ("char", scalarType "string")
  , ("text", scalarType "string")
  , ("bpchar", scalarType "string")
  , ("int2", scalarType "integer")
  , ("int4", scalarType "integer")
  , ("int8", scalarType "integer")
  , ("smallint", scalarType "integer")
  , ("integer", scalarType "integer")
  , ("bigint", scalarType "integer")
  , ("serial", scalarType "integer")
  , ("bigserial", scalarType "integer")
  , ("numeric", scalarType "number")
  , ("decimal", scalarType "number")
  , ("real", scalarType "number")
  , ("float4", scalarType "number")
  , ("float8", scalarType "number")
  , ("double precision", scalarType "number")
  , ("bool", scalarType "boolean")
  , ("boolean", scalarType "boolean")
  , ("timestamp", formatType "string" "date-time")
  , ("timestamptz", formatType "string" "date-time")
  , ("date", formatType "string" "date")
  , ("time", formatType "string" "time")
  , ("timetz", formatType "string" "time")
  , ("uuid", formatType "string" "uuid")
  , ("bytea", formatType "string" "binary")
  , ("json", scalarType "object")
  , ("jsonb", scalarType "object") ]

/-- `extractIntVal` from `type-map.ts`: the integer payload of a
`typmod` node (`typmod?.A_Const?.ival`, in either serialisation). -/
def extractIntVal : Option WNode → Option Int
  | some (.aconst (.ival i)) => some i
  | _ => none

/-- Wrap a rule one array level deep (`{ type: 'array', items: r }`). -/
def wrapArray (r : JsonSchemaType) : JsonSchemaType :=
  .mk (some "array") none none none (some r)

/-- Iterated array wrapping, one level per source array dimension. -/
def wrapArrayN : Nat → JsonSchemaType → JsonSchemaType
  | 0, r => r
  | n + 1, r => wrapArray (wrapArrayN n r)

/-- `mapType` from the poc-json-schema `type-map.ts`: normalise the type
name, look it up in `TYPE_MAP` (falling back to `string`), attach
`maxLength` for `varchar`/`char` with a positive length modifier and
`multipleOf` for `numeric`/`decimal` with a positive scale, then wrap in
one array level per `arrayBounds` entry. -/
def mapType (pgType : String) (typmods : List WNode)
    (arrayBounds : List WNode) : JsonSchemaType :=
  let normalized := jsTrim (jsToLower pgType)
  let base := (lookupKV TYPE_MAP normalized).getD (scalarType "string")
  let base :=
    if (normalized = "varchar" ∨ normalized = "char")
        ∧ (typmods.head?).isSome then
      match extractIntVal typmods.head? with
      | some len =>
        if 0 < len then
          .mk base.typ base.format (some len) base.multipleOf base.items
        else base
      | none => base
    else base
  let base :=
    if (normalized = "numeric" ∨ normalized = "decimal")
        ∧ typmods.length = 2 then
      match extractIntVal typmods[1]? with
      | some scale =>
        if 0 < scale then
          .mk base.typ base.format base.maxLength
            (some ((1 : ℚ) / (10 : ℚ) ^ scale.toNat)) base.items
        else base
      | none => base
    else base
  wrapArrayN arrayBounds.length base

/-- The `typeName` node of a column: its dotted name parts, type
modifiers, and array bound markers. -/
structure TypeNameNode where
  names : List WNode := []
  typmods : List WNode := []
  arrayBounds : List WNode := []

/-- Non-empty `String.sval` payloads of a node list, modelling
`nodes.map(n => n.String?.sval || '').filter(Boolean)`. -/
def svalsOf (nodes : List WNode) : List String :=
  nodes.filterMap fun n =>
    match n with
    | .strNode s => if s ≠ "" then some s else none
    | _ => none

/-- `extractTypeName` from `type-map.ts`: the last non-empty name part
(skipping a `pg_catalog` qualifier by position), defaulting to
`text`. -/
def extractTypeName (typeName : Option TypeNameNode) : String :=
  match typeName with
  | none => "text"
  | some tn => ((svalsOf tn.names).getLast?).getD "text"

/-- The result object of `extractDefault`: a simple constant for the
JSON-Schema `default` key, or a computed-expression rendering for the
custom `$default` key. -/
structure DefaultValue where
  simple : Option JsVal := none
  computed : Option String := none
deriving DecidableEq, Repr

/-- The `SQLValueFunction` op table of `serializeDefaultExpr`. -/
def svfOpMap : List (String × String) :=
  [ ("SVFOP_CURRENT_DATE", "CURRENT_DATE")
  , ("SVFOP_CURRENT_TIME", "CURRENT_TIME")
  , ("SVFOP_CURRENT_TIME_N", "CURRENT_TIME")
  , ("SVFOP_CURRENT_TIMESTAMP", "CURRENT_TIMESTAMP")
  , ("SVFOP_CURRENT_TIMESTAMP_N", "CURRENT_TIMESTAMP")
  , ("SVFOP_LOCALTIME", "LOCALTIME")
  , ("SVFOP_LOCALTIME_N", "LOCALTIME")
  , ("SVFOP_LOCALTIMESTAMP", "LOCALTIMESTAMP")
  , ("SVFOP_LOCALTIMESTAMP_N", "LOCALTIMESTAMP")
  , ("SVFOP_CURRENT_ROLE", "CURRENT_ROLE")
  , ("SVFOP_CURRENT_USER", "CURRENT_USER")
  , ("SVFOP_USER", "USER")
  , ("SVFOP_SESSION_USER", "SESSION_USER")
  , ("SVFOP_CURRENT_CATALOG", "CURRENT_CATALOG")
  , ("SVFOP_CURRENT_SCHEMA", "CURRENT_SCHEMA") ]

/-- `serializeDefaultExpr` from `converter.ts`: render a computed
default expression (function call, SQL value function, or string
type-cast), falling back to the `EXPRESSION` marker. -/
def serializeDefaultExpr (expr : WNode) : String :=
  match expr with
  | .funcCall names args =>
    let funcName := String.intercalate "." (svalsOf names)
    if args.isEmpty then funcName ++ "()" else funcName ++ "(...)"
  | .sqlValueFunction op => (lookupKV svfOpMap op).getD "SQL_FUNCTION"
  | .typeCast (some (.aconst (.sval v))) => "\x27" ++ v ++ "\x27::text"
  | _ => "EXPRESSION"

/-- `extractDefault` from `converter.ts`: constants become `simple`;
function calls, SQL value functions, type casts and any other non-empty
expression become `computed`; a missing or empty expression yields
neither. -/
def extractDefault (rawExpr : Option WNode) : DefaultValue :=
  match rawExpr with
  | none => {}
  | some (.aconst v) => { simple := some v.toJsVal }
  | some (.strNode s) =>
    if s ≠ "" then { simple := some (.str s) }
    else { computed := some (serializeDefaultExpr (.strNode s)) }
  | some .emptyObj => {}
  | some w => { computed := some (serializeDefaultExpr w) }

/-- `ForeignKeyInfo` from `converter.ts`; `table` and `column` default
to the empty string, the action names to `undefined`. -/
structure ForeignKeyInfo where
  table : String := ""
  column : String := ""
  onDelete : Option String := none
  onUpdate : Option String := none
deriving DecidableEq, Repr

/-- `mapFkAction`: the five PostgreSQL action codes to their names;
unknown codes map to `undefined`. -/
def mapFkAction (action : String) : Option String :=
  lookupKV
    [ ("c", "cascade"), ("n", "set null"), ("d", "set default")
    , ("r", "restrict"), ("a", "no action") ]
    (jsToLower action)

/-- A column- or table-level constraint object (`c.Constraint`), with
the fields the converter reads; absent fields are `none`/`[]`. -/
structure ColumnConstraint where
  contype : String
  raw_expr : Option WNode := none
  pktable : Option String := none
  pk_attrs : List WNode := []
  fk_del_action : Option String := none
  fk_upd_action : Option String := none

/-- `extractForeignKey` from `converter.ts`: referenced table name,
FIRST referenced column (`pk_attrs[0]`), and the mapped actions when
the action codes are present (truthy). -/
def extractForeignKey (constraint : ColumnConstraint) : ForeignKeyInfo :=
  let table := (constraint.pktable).getD ""
  let column :=
    match constraint.pk_attrs.head? with
    | some (.strNode s) => s
    | _ => ""
  let onDelete :=
    match constraint.fk_del_action with
    | some a => if a ≠ "" then mapFkAction a else none
    | none => none
  let onUpdate :=
    match constraint.fk_upd_action with
    | some a => if a ≠ "" then mapFkAction a else none
    | none => none
  { table := table, column := column
  , onDelete := onDelete, onUpdate := onUpdate }

/-- The `$index` marker: `true` (plain index) or `'unique'`. -/
inductive IndexV where
  | tru
  | uniq
deriving DecidableEq, Repr

/-- `PropertySchema` from `converter.ts`; the `$`-prefixed source keys
are `primaryKey`, `idx`, `ref`, `onDelete`, `onUpdate` and
`computedDefault` (for `$default`) here.  A key is `some` exactly when
the emitted object carries it. -/
structure PropertySchema where
  typ : Option String := none
  format : Option String := none
  maxLength : Option Int := none
  multipleOf : Option ℚ := none
  minimum : Option ℚ := none
  maximum : Option ℚ := none
  enumVals : Option (List JsVal) := none
  pattern : Option String := none
  defaultVal : Option JsVal := none
  computedDefault : Option String := none
  primaryKey : Option Bool := none
  idx : Option IndexV := none
  ref : Option String := none
  onDelete : Option String := none
  onUpdate : Option String := none
  items : Option JsonSchemaType := none

/-- `TableSchema` from `converter.ts` (`type: "object"` and
`additionalProperties: false` are constants and omitted). -/
structure TableSchema where
  properties : List (String × PropertySchema) := []
  required : List String := []

/-- `Object.assign(prop, validation)`: keys present on the
`ValidationRules` object overwrite the property's. -/
def assignValidation (prop : PropertySchema) (v : ValidationRules) :
    PropertySchema :=
  { prop with
    minimum := v.minimum.orElse fun _ => prop.minimum
    maximum := v.maximum.orElse fun _ => prop.maximum
    enumVals := v.enumVals.orElse fun _ => prop.enumVals
    pattern := v.pattern.orElse fun _ => prop.pattern }

/-- A `ColumnDef` node as read by the converter: column name, type name
node, and the (possibly wrapperless, hence `Option`) constraint list
entries. -/
structure ColDef where
  colname : String
  typeName : Option TypeNameNode := none
  constraints : List (Option ColumnConstraint) := []

/-- State of `addColumn`'s constraint loop: the property under
construction and the three flags. -/
structure AddColState where
  prop : PropertySchema
  isRequired : Bool := false
  isPrimaryKey : Bool := false
  hasForeignKey : Bool := false

/-- The `CONSTR_CHECK` case of `addColumn`'s constraint loop: classify
the expression unless the column is an enum reference, and merge any
extracted rules into the property. -/
def applyCheckConstraint (name : String) (isEnumRef : Bool)
    (st : AddColState) (k : ColumnConstraint) : AddColState :=
  if ¬ isEnumRef then
    match analyzeCheck k.raw_expr name with
    | some v => { st with prop := assignValidation st.prop v }
    | none => st
  else st

/-- The `CONSTR_DEFAULT` case of `addColumn`'s constraint loop: a
simple constant goes to `default`, a (truthy) computed rendering to
`$default`. -/
def applyDefaultConstraint (st : AddColState) (k : ColumnConstraint) :
    AddColState :=
  let dv := extractDefault k.raw_expr
  match dv.simple with
  | some v => { st with prop := { st.prop with defaultVal := some v } }
  | none =>
    match dv.computed with
    | some s =>
      if s ≠ "" then
        { st with prop := { st.prop with computedDefault := some s } }
      else st
    | none => st

/-- The `CONSTR_FOREIGN` case of `addColumn`'s constraint loop: when
table and column were extracted (truthy), set the reference path and
the non-`no action` actions, and record that a foreign key was seen. -/
def applyForeignConstraint (st : AddColState) (k : ColumnConstraint) :
    AddColState :=
  let fk := extractForeignKey k
  if fk.table ≠ "" ∧ fk.column ≠ "" then
    let prop := { st.prop with
      ref := some ("#/properties/" ++ fk.table ++ "/properties/"
        ++ fk.column) }
    let prop :=
      match fk.onDelete with
      | some a =>
        if a ≠ "no action" then { prop with onDelete := some a }
        else prop
      | none => prop
    let prop :=
      match fk.onUpdate with
      | some a =>
        if a ≠ "no action" then { prop with onUpdate := some a }
        else prop
      | none => prop
    { st with prop := prop, hasForeignKey := true }
  else st

/-- One iteration of `addColumn`'s constraint loop (the `switch` on
`contype`); entries without a `Constraint` key are skipped. -/
def applyConstraint (name : String) (isEnumRef : Bool)
    (st : AddColState) (c : Option ColumnConstraint) : AddColState :=
  match c with
  | none => st
  | some c =>
    if c.contype = "CONSTR_NOTNULL" then
      { st with isRequired := true }
    else if c.contype = "CONSTR_PRIMARY" then
      { st with isPrimaryKey := true
                prop := { st.prop with primaryKey := some true } }
    else if c.contype = "CONSTR_UNIQUE" then
      { st with prop := { st.prop with idx := some .uniq } }
    else if c.contype = "CONSTR_CHECK" then
      applyCheckConstraint name isEnumRef st c
    else if c.contype = "CONSTR_DEFAULT" then
      applyDefaultConstraint st c
    else if c.contype = "CONSTR_FOREIGN" then
      applyForeignConstraint st c
    else st

/-- The initial property built by `addColumn` before the constraint
loop: an enum `$ref` when the type names a registered enum, else the
`mapType` output copied key by key (JS truthiness: a zero `maxLength`
or `multipleOf` and an empty `format` would not be copied). -/
def initialProp (enumRegistry : List (String × List String))
    (pgType : String) (typmods : List WNode) (arrayBounds : List WNode) :
    PropertySchema × Bool :=
  if (lookupKV enumRegistry pgType).isSome then
    ({ ref := some ("#/$defs/" ++ pgType) }, true)
  else
    let jsonType := mapType pgType typmods arrayBounds
    let prop : PropertySchema := { typ := jsonType.typ }
    let prop :=
      match jsonType.format with
      | some f => if f ≠ "" then { prop with format := some f } else prop
      | none => prop
    let prop :=
      match jsonType.maxLength with
      | some ml => if ml ≠ 0 then { prop with maxLength := some ml } else prop
      | none => prop
    let prop :=
      match jsonType.multipleOf with
      | some mo => if mo ≠ 0 then { prop with multipleOf := some mo } else prop
      | none => prop
    let prop :=
      match jsonType.items with
      | some it => { prop with items := some it }
      | none => prop
    (prop, false)

/-- `PgToJsonSchemaConverter.addColumn`: build the property, run the
constraint loop, strip `type`/`format`/`maxLength` when a foreign key
was found, and append to `required` when NOT NULL and not primary
key. -/
def addColumn (enumRegistry : List (String × List String))
    (tableSchema : TableSchema) (col : ColDef) : TableSchema :=
  let name := col.colname
  let pgType := extractTypeName col.typeName
  let typmods := (col.typeName.map (·.typmods)).getD []
  let arrayBounds := (col.typeName.map (·.arrayBounds)).getD []
  let (prop0, isEnumRef) := initialProp enumRegistry pgType typmods arrayBounds
  let st := col.constraints.foldl (applyConstraint name isEnumRef)
    { prop := prop0 }
  let prop :=
    if st.hasForeignKey then
      { st.prop with typ := none, format := none, maxLength := none }
    else st.prop
  let required :=
    if st.isRequired ∧ ¬ st.isPrimaryKey then
      tableSchema.required ++ [name]
    else tableSchema.required
  { properties := putKV tableSchema.properties name prop
  , required := required }

/-- `PgToJsonSchemaConverter.convertCreateStmt`: fold `addColumn` over
the `ColumnDef` table elements (table-level constraints are skipped by
the source). -/
def convertCreateStmt (enumRegistry : List (String × List String))
    (tableElts : List (Option ColDef)) : TableSchema :=
  tableElts.foldl
    (fun ts elt =>
      match elt with
      | some col => addColumn enumRegistry ts col
      | none => ts)
    {}

/-- The whole declarative-schema document (`JsonSchema` in
`converter.ts` / the `to-sqlite` chunk): `$defs` for shared enums and a
`properties` map keyed by table name. -/
structure JsonSchema where
  defs : List (String × PropertySchema) := []
  properties : List (String × TableSchema) := []

/-- JS truthiness for an optional string: present and non-empty. -/
def jsStrTruthy (o : Option String) : Bool :=
  match o with
  | some s => s ≠ ""
  | none => false

/-- The `RESERVED` word set of the `to-sqlite` chunk of
`src/poc-json-schema/src/example.ts`, in source order. -/
def RESERVED : List String :=
  [ "abort", "action", "add", "after", "all", "alter", "always", "analyze"
  , "and", "as", "asc", "attach", "autoincrement", "before", "begin"
  , "between", "by", "cascade", "case", "cast", "check", "collate", "column"
  , "commit", "conflict", "constraint", "create", "cross", "current"
  , "current_date", "current_time", "current_timestamp", "database", "default"
  , "deferrable", "deferred", "delete", "desc", "detach", "distinct", "do"
  , "drop", "each", "else", "end", "escape", "except", "exclude", "exclusive"
  , "exists", "explain", "fail", "filter", "first", "following", "for"
  , "foreign", "from", "full", "generated", "glob", "group", "groups"
  , "having", "if", "ignore", "immediate", "in", "index", "indexed"
  , "initially", "inner", "insert", "instead", "intersect", "into", "is"
  , "isnull", "join", "key", "last", "left", "like", "limit", "match"
  , "materialized", "natural", "no", "not", "nothing", "notnull", "null"
  , "nulls", "of", "offset", "on", "or", "order", "others", "outer", "over"
  , "partition", "plan", "pragma", "preceding", "primary", "query", "raise"
  , "range", "recursive", "references", "regexp", "reindex", "release"
  , "rename", "replace", "restrict", "returning", "right", "rollback", "row"
  , "rows", "savepoint", "select", "set", "table", "temp", "temporary"
  , "then", "ties", "to", "transaction", "trigger", "unbounded", "union"
  , "unique", "update", "using", "vacuum", "values", "view", "virtual"
  , "when", "where", "window", "with", "without" ]

/-- `needsQuoting` from the `to-sqlite` chunk: reserved word (case
insensitively) or any character outside `[a-zA-Z0-9_]`. -/
def needsQuoting (name : String) : Bool :=
  RESERVED.contains (jsToLower name)
    ∨ name.data.any (fun c => ¬ (c.isAlphanum ∨ c = '_'))

/-- `q` from the `to-sqlite` chunk: double-quote a name when needed. -/
def q (name : String) : String :=
  if needsQuoting name then "\"" ++ name ++ "\"" else name

/-- The anchored regular expression
`^#\/properties\/([^/]+)\/properties\/([^/]+)$` used by `resolveType`
and `resolveFk`, rendered over `splitOn`: the match succeeds exactly on
five slash-separated parts `#`, `properties`, a non-empty table name,
`properties`, and a non-empty column name. -/
def parseRef (r : String) : Option (String × String) :=
  match splitOnSlash r with
  | [h, p1, tb, p2, cl] =>
    if h = "#" ∧ p1 = "properties" ∧ p2 = "properties"
        ∧ tb ≠ "" ∧ cl ≠ "" then
      some (tb, cl)
    else none
  | _ => none

/-- The `typeMap` table inside `resolveType`. -/
def sqliteTypeMap : List (String × String) :=
  [ ("string", "TEXT"), ("integer", "INTEGER"), ("number", "REAL")
  , ("boolean", "INTEGER"), ("object", "TEXT"), ("array", "TEXT") ]

/-- One evaluation step of `resolveType` from the `to-sqlite` chunk:
either the final SQLite type string (`Sum.inr`) or, when the `$ref`
resolves to an existing property, the property the source recurses on
(`Sum.inl`).  A truthy `$ref` that is malformed or dangling yields
`TEXT`; without a truthy `$ref` the scalar `type` is mapped through
`typeMap` with the `TEXT` fallback. -/
def resolveStep (prop : PropertySchema) (schema : JsonSchema) :
    PropertySchema ⊕ String :=
  if jsStrTruthy prop.ref then
    match prop.ref with
    | some r =>
      match parseRef r with
      | some (tb, cl) =>
        match (lookupKV schema.properties tb).bind
            (fun ts => lookupKV ts.properties cl) with
        | some refProp => .inl refProp
        | none => .inr "TEXT"
      | none => .inr "TEXT"
    | none => .inr "TEXT"
  else
    .inr ((lookupKV sqliteTypeMap (prop.typ.getD "")).getD "TEXT")

/-- `resolveType`, made total with an explicit recursion budget: the
source recurses on the referenced property with no cycle detection and
no visited set, so a run that consumes the whole budget (`none`)
corresponds to a source run that never returns. -/
def resolveTypeFuel : Nat → PropertySchema → JsonSchema → Option String
  | 0, _, _ => none
  | fuel + 1, prop, schema =>
    match resolveStep prop schema with
    | .inr t => some t
    | .inl refProp => resolveTypeFuel fuel refProp schema

/-- `resolveFk` from the `to-sqlite` chunk: parse the reference path
into table and column. -/
def resolveFk (ref : String) : Option (String × String) :=
  parseRef ref

/-- The `REFERENCES …` clause built for a column whose `$ref` parses,
with upper-cased `ON DELETE`/`ON UPDATE` suffixes for truthy stored
actions. -/
def fkColumnClause (prop : PropertySchema) : Option String :=
  if jsStrTruthy prop.ref then
    match prop.ref with
    | some r =>
      match resolveFk r with
      | some (tb, cl) =>
        some ("REFERENCES " ++ q tb ++ "(" ++ q cl ++ ")"
          ++ (match prop.onDelete with
              | some a => if a ≠ "" then " ON DELETE " ++ jsToUpper a else ""
              | none => "")
          ++ (match prop.onUpdate with
              | some a => if a ≠ "" then " ON UPDATE " ++ jsToUpper a else ""
              | none => ""))
      | none => none
    | none => none
  else none

/-- One column line of `jsonSchemaToSqlite`: quoted name, resolved
type, `PRIMARY KEY [AUTOINCREMENT]` (the source resolves the type a
second time for the AUTOINCREMENT test), `NOT NULL` from the required
list, and the foreign-key clause. -/
def colLine (fuel : Nat) (schema : JsonSchema) (required : List String)
    (colName : String) (prop : PropertySchema) : Option String :=
  (resolveTypeFuel fuel prop schema).bind fun t =>
    (if prop.primaryKey = some true then
        (resolveTypeFuel fuel prop schema).map fun t2 =>
          if t2 = "INTEGER" then ["PRIMARY KEY AUTOINCREMENT"]
          else ["PRIMARY KEY"]
      else some []).bind fun pkParts =>
      let parts := [q colName, t] ++ pkParts
        ++ (if required.contains colName then ["NOT NULL"] else [])
        ++ (match fkColumnClause prop with
            | some c => [c]
            | none => [])
      some ("  " ++ String.intercalate " " parts)

/-- One `CREATE TABLE` statement of `jsonSchemaToSqlite`. -/
def tableDdl (fuel : Nat) (schema : JsonSchema)
    (entry : String × TableSchema) : Option String :=
  (entry.2.properties.mapM
      (fun kv => colLine fuel schema entry.2.required kv.1 kv.2)).bind
    fun cols =>
      some ("CREATE TABLE " ++ q entry.1 ++ " (\n"
        ++ String.intercalate ",\n" cols ++ "\n);")

/-- The index rows collected by `jsonSchemaToSqlite`: table, column,
uniqueness (from `$index === 'unique'`), in traversal order. -/
def collectIndices (schema : JsonSchema) :
    List (String × String × Bool) :=
  schema.properties.flatMap fun te =>
    te.2.properties.filterMap fun ce =>
      match ce.2.idx with
      | some v => some (te.1, ce.1, v = IndexV.uniq)
      | none => none

/-- One `CREATE [UNIQUE] INDEX` statement. -/
def renderIndex (row : String × String × Bool) : String :=
  (if row.2.2 then "CREATE UNIQUE INDEX " else "CREATE INDEX ")
    ++ q ("idx_" ++ row.1 ++ "_" ++ row.2.1)
    ++ " ON " ++ q row.1 ++ "(" ++ q row.2.1 ++ ");"

/-- `jsonSchemaToSqlite` from `src/poc-json-schema/src/example.ts`
(lines 161-224), with the recursion budget of `resolveTypeFuel`
threaded through: all tables, then the block of index statements. -/
def jsonSchemaToSqliteFuel (fuel : Nat) (schema : JsonSchema) :
    Option String :=
  (schema.properties.mapM (tableDdl fuel schema)).bind fun tables =>
    let idxStmts := (collectIndices schema).map renderIndex
    let parts := tables
      ++ (if idxStmts.isEmpty then [] else [String.intercalate "\n" idxStmts])
    some (String.intercalate "\n\n" parts)

/-- `isSerialType` from the deparser `type-map.ts`
(`src/unnamed/part_004`). -/
def isSerialType (pgType : String) : Bool :=
  ["serial", "serial4", "bigserial", "serial8", "smallserial", "serial2"
  ].contains (jsToLower pgType)

/-- `isLengthConstrainedType` from the deparser `type-map.ts`
(`src/unnamed/part_004`). -/
def isLengthConstrainedType (pgType : String) : Bool :=
  ["varchar", "character varying", "char", "character", "bpchar"
  ].contains (jsToLower pgType)

/-- Modelled from the spec: `isBooleanType`, imported by the deparser
from its `type-map.ts` but absent from `src/` (part_004 lacks it); the
boolean family is `BOOLEAN, BOOL` per the spec's type table and
`PG_TO_SQLITE`. -/
def isBooleanType (pgType : String) : Bool :=
  ["bool", "boolean"].contains (jsToLower pgType)

/-- Modelled from the spec: `isNumericType`, absent from `src/`; the
fixed-point family subject to precision/scale checks is
`NUMERIC, DECIMAL` per the spec's type table. -/
def isNumericType (pgType : String) : Bool :=
  ["numeric", "decimal"].contains (jsToLower pgType)

/-- Modelled from the spec: `isJsonType`, absent from `src/`; the JSON
family is `JSON, JSONB` per the spec's type table. -/
def isJsonType (pgType : String) : Bool :=
  ["json", "jsonb"].contains (jsToLower pgType)

/-- Modelled from the spec: `isTimestampType`, absent from `src/`; the
timestamp family is `TIMESTAMP, TIMESTAMPTZ` per the spec's type
table. -/
def isTimestampType (pgType : String) : Bool :=
  ["timestamp", "timestamptz"].contains (jsToLower pgType)

/-- Modelled from the spec: `isDateType`, absent from `src/`; the date
family is `DATE` per the spec's type table. -/
def isDateType (pgType : String) : Bool :=
  jsToLower pgType = "date"

/-- Modelled from the spec: `isTimeType`, absent from `src/`; the time
family is `TIME, TIMETZ` per the spec's type table. -/
def isTimeType (pgType : String) : Bool :=
  ["time", "timetz"].contains (jsToLower pgType)

/-- The PostgreSQL type name the deparser's `ColumnDef` derives from
`node.typeName.names`: the second part when the two-part name is
`pg_catalog`-qualified, otherwise the FIRST part. -/
def depPgType (tn : TypeNameNode) : Option String :=
  let names := svalsOf tn.names
  if names.length = 2 ∧ names.head? = some "pg_catalog" then names[1]?
  else names.head?

/-- JS `Number#toString` for `Math.pow(10, k)`: plain decimal notation
down to `1e-6`, exponent notation below. -/
def powTenStr (k : Int) : String :=
  if 0 ≤ k then toString ((10 : Nat) ^ k.toNat)
  else if -6 ≤ k then
    "0." ++ String.mk (List.replicate (k.natAbs - 1) '0') ++ "1"
  else "1e" ++ toString k

/-- The length-bound check of `ColumnDef`
(`CHECK (length(col) <= n)`) — no null guard in the source. -/
def lengthCheckClause (col : String) (len : Int) : String :=
  "CHECK (length(" ++ col ++ ") <= " ++ toString len ++ ")"

/-- The numeric precision/scale check of `ColumnDef` — no null guard in
the source. -/
def numericCheckClause (col : String) (precision scale : Int) : String :=
  let m := powTenStr scale
  let maxInt := powTenStr (precision - scale)
  "CHECK (ABS(ROUND(" ++ col ++ " * " ++ m ++ ") - " ++ col ++ " * "
    ++ m ++ ") < 0.0001 AND ABS(" ++ col ++ ") < " ++ maxInt ++ ")"

/-- The array-of-JSON validity check of `ColumnDef`, with the
`IS NULL OR` guard. -/
def jsonArrayCheckClause (col : String) : String :=
  "CHECK (" ++ col ++ " IS NULL OR (json_valid(" ++ col
    ++ ") AND json_type(" ++ col ++ ") = \x27array\x27))"

/-- The enum-membership check of `ColumnDef`
(`CHECK (col IN ('a', 'b'))`) — no null guard in the source. -/
def enumCheckClause (col : String) (vals : List String) : String :=
  "CHECK (" ++ col ++ " IN ("
    ++ String.intercalate ", "
        (vals.map (fun v => "\x27" ++ v ++ "\x27"))
    ++ "))"

/-- The boolean-domain check of `ColumnDef` (`CHECK (col IN (0, 1))`) —
no null guard in the source. -/
def boolCheckClause (col : String) : String :=
  "CHECK (" ++ col ++ " IN (0, 1))"

/-- The JSON validity check of `ColumnDef`, with the `IS NULL OR`
guard. -/
def jsonCheckClause (col : String) : String :=
  "CHECK (" ++ col ++ " IS NULL OR json_valid(" ++ col ++ "))"

/-- The timestamp format check of `ColumnDef`, with the `IS NULL OR`
guard. -/
def timestampCheckClause (col : String) : String :=
  "CHECK (" ++ col ++ " IS NULL OR datetime(" ++ col ++ ") IS "
    ++ col ++ ")"

/-- The date format check of `ColumnDef`, with the `IS NULL OR`
guard. -/
def dateCheckClause (col : String) : String :=
  "CHECK (" ++ col ++ " IS NULL OR date(" ++ col ++ ") IS " ++ col ++ ")"

/-- The time format check of `ColumnDef`, with the `IS NULL OR`
guard. -/
def timeCheckClause (col : String) : String :=
  "CHECK (" ++ col ++ " IS NULL OR time(" ++ col ++ ") IS " ++ col ++ ")"

/-- The synthesized type-validation CHECK clauses appended by
`SQLiteDeparser.ColumnDef` (sqlite-deparser.ts, lines 154-186), in
emission order: length bound, numeric precision/scale bound, then one
of array-of-JSON, enum membership, boolean domain, JSON validity,
timestamp, date or time format.  The length / numeric / array /
type-family conditions reproduce the derivations of lines 105-129
(`lengthConstraint`, `numericConstraint`, `isArray`, `pgType`). -/
def columnDefSynthChecks (enumRegistry : List (String × List String))
    (colname : Option String) (typeName : Option TypeNameNode) :
    List String :=
  match typeName with
  | none => []
  | some tn =>
    let pgType := depPgType tn
    let isArray := ¬ tn.arrayBounds.isEmpty
    let lengthConstraint : Option Int :=
      match pgType with
      | some t =>
        if isLengthConstrainedType t ∧ tn.typmods.length > 0 then
          match extractIntVal tn.typmods.head? with
          | some len => if 0 < len then some len else none
          | none => none
        else none
      | none => none
    let numericConstraint : Option (Int × Int) :=
      match pgType with
      | some t =>
        if isNumericType t ∧ 2 ≤ tn.typmods.length then
          match extractIntVal tn.typmods.head?,
              extractIntVal tn.typmods[1]? with
          | some precision, some scale =>
            if 0 < precision ∧ 0 ≤ scale then some (precision, scale)
            else none
          | _, _ => none
        else none
      | none => none
    match colname with
    | none => []
    | some col =>
      if col = "" then []
      else
        (match lengthConstraint with
          | some len => [lengthCheckClause col len]
          | none => [])
        ++ (match numericConstraint with
            | some pr => [numericCheckClause col pr.1 pr.2]
            | none => [])
        ++ (if isArray then [jsonArrayCheckClause col]
            else match pgType with
              | some t =>
                if t = "" then []
                else
                  match lookupKV enumRegistry (jsToLower t) with
                  | some vals => [enumCheckClause col vals]
                  | none =>
                    if isBooleanType t then [boolCheckClause col]
                    else if isJsonType t then [jsonCheckClause col]
                    else if isTimestampType t then [timestampCheckClause col]
                    else if isDateType t then [dateCheckClause col]
                    else if isTimeType t then [timeCheckClause col]
                    else []
              | none => [])

/-- `SQLiteDeparser.getFkAction`: `NO ACTION` (`'a'`) and unknown codes
map to `null`. -/
def getFkAction (action : String) : Option String :=
  match action with
  | "r" => some "RESTRICT"
  | "c" => some "CASCADE"
  | "n" => some "SET NULL"
  | "d" => some "SET DEFAULT"
  | _ => none

/-- The `ON DELETE`/`ON UPDATE` fragment of the deparser's foreign-key
branch: emitted only for a truthy action code other than `'a'` that
`getFkAction` recognises. -/
def fkActionParts (keyword : String) (action : Option String) :
    List String :=
  match action with
  | some a =>
    if a ≠ "" ∧ a ≠ "a" then
      match getFkAction a with
      | some act => [keyword, act]
      | none => []
    else []
  | none => []

/-- The parts list built by `SQLiteDeparser.Constraint` for a
`CONSTR_FOREIGN` node with a `pktable` (sqlite-deparser.ts, lines
235-268): `REFERENCES`, the quoted table name (quoting delegated to the
external base deparser and abstracted as `quote`), the referenced
column list when non-empty, then the action fragments. -/
def constraintForeignParts (quote : String → String) (relname : String)
    (pkAttrs : List WNode) (delAction updAction : Option String) :
    List String :=
  ["REFERENCES", quote relname]
    ++ (if pkAttrs.isEmpty then []
        else ["(" ++ String.intercalate ", " (svalsOf pkAttrs) ++ ")"])
    ++ fkActionParts "ON DELETE" delAction
    ++ fkActionParts "ON UPDATE" updAction



/-! ## Concrete inputs and derived notions used by the theorems -/

/-- A single comparison node at the wrapper level: `lcol <op> rexpr`. -/
def cmpExpr (op lcol : String) (rexpr : Option WNode) : WNode :=
  .aexpr none [.strNode op] (some (.columnRef [.strNode lcol])) rexpr

/-- An `IN`-list node `lcol IN (items)`: `kind` is `AEXPR_IN` and the
operator name array holds `=`, as the upstream parser emits. -/
def inExpr (lcol : String) (items : List WNode) : WNode :=
  .aexpr (some "AEXPR_IN") [.strNode "="]
    (some (.columnRef [.strNode lcol])) (some (.listNode items))

/-- The two-column conjunction `CHECK (a >= 0 AND b <= 10)`. -/
def multiColAndExpr : WNode :=
  .boolexpr (some "AND_EXPR") (some
    [ cmpExpr ">=" "a" (some (.aconst (.ival 0)))
    , cmpExpr "<=" "b" (some (.aconst (.ival 10))) ])

/-- The composite foreign key `REFERENCES users(id, email)`. -/
def compositeFkConstraint : ColumnConstraint :=
  { contype := "CONSTR_FOREIGN", pktable := some "users"
  , pk_attrs := [.strNode "id", .strNode "email"] }

/-- Property lookup through a `$ref` path: parse the path, then find
the referenced table and column in the document. -/
def refLookup (schema : JsonSchema) (r : String) : Option PropertySchema :=
  (parseRef r).bind fun tc =>
    (lookupKV schema.properties tc.1).bind fun ts =>
      lookupKV ts.properties tc.2

/-- Property `a` of the cyclic document: references `t.b`. -/
def cycPropA : PropertySchema := { ref := some "#/properties/t/properties/b" }

/-- Property `b` of the cyclic document: references `t.a` back. -/
def cycPropB : PropertySchema := { ref := some "#/properties/t/properties/a" }

/-- A declarative-schema document whose `$ref` chain is a two-cycle:
`t.a → t.b → t.a`. -/
def cycSchema : JsonSchema :=
  { properties := [("t",
      { properties := [("a", cycPropA), ("b", cycPropB)] })] }

/-- The emitter exhausts every recursion budget on this document: no
amount of fuel makes `jsonSchemaToSqlite` return. -/
def emitterLoopsOn (schema : JsonSchema) : Prop :=
  ∀ fuel, jsonSchemaToSqliteFuel fuel schema = none

/-- The null-allowance shape required by the specification: the clause
literally starts with `CHECK (col IS NULL OR `. -/
def guardedClause (col clause : String) : Prop :=
  ∃ rest, clause = "CHECK (" ++ col ++ " IS NULL OR " ++ rest

/-- Decidable form of the null-allowance test, for concrete columns
and clauses. -/
def hasNullGuard (col clause : String) : Bool :=
  strStartsWith clause ("CHECK (" ++ col ++ " IS NULL OR")

/-- The number of `array` levels wrapping the base rule. -/
def arrayDepth : JsonSchemaType → Nat
  | .mk t _ _ _ items =>
    if t = some "array" then
      1 + (match items with
           | some j => arrayDepth j
           | none => 0)
    else 0

/-- Is the type component of the rule itself `array`? -/
def isArrayRule (j : JsonSchemaType) : Bool :=
  decide (j.typ = some "array")

/-- Is the entry a `NOT NULL` constraint? -/
def isNotNullC (c : Option ColumnConstraint) : Bool :=
  match c with
  | some k => k.contype = "CONSTR_NOTNULL"
  | none => false

/-- Is the entry a primary-key constraint? -/
def isPrimaryC (c : Option ColumnConstraint) : Bool :=
  match c with
  | some k => k.contype = "CONSTR_PRIMARY"
  | none => false

/-- Is the entry a foreign-key constraint whose extracted target table
and column are both non-empty (the condition under which `addColumn`
emits the reference)? -/
def isValidFkC (c : Option ColumnConstraint) : Bool :=
  match c with
  | some k =>
    decide (k.contype = "CONSTR_FOREIGN")
      && decide ((extractForeignKey k).table ≠ "")
      && decide ((extractForeignKey k).column ≠ "")
  | none => false

/-- Does the column carry a `NOT NULL` constraint? -/
def hasNotNull (col : ColDef) : Bool := col.constraints.any isNotNullC

/-- Does the column carry a primary-key constraint? -/
def hasPrimary (col : ColDef) : Bool := col.constraints.any isPrimaryC

/-- The column `user_id INTEGER REFERENCES users` (no referenced column
list, as PostgreSQL permits when referencing the primary key). -/
def fkNoColDef : ColDef :=
  { colname := "user_id",
    typeName := some { names := [.strNode "int4"] },
    constraints := [some { contype := "CONSTR_FOREIGN",
                           pktable := some "users" }] }

/-- The column `user_id INTEGER REFERENCES users(id)`. -/
def validFkColDef : ColDef :=
  { colname := "user_id",
    typeName := some { names := [.strNode "int4"] },
    constraints := [some { contype := "CONSTR_FOREIGN",
                           pktable := some "users",
                           pk_attrs := [.strNode "id"] }] }

/-! ## Helper lemmas -/

lemma extractColumnRef_single_ne {lcol c : String} (h : lcol ≠ c) :
    extractColumnRef (some (.columnRef [.strNode lcol])) ≠ some c := by
  by_cases h0 : lcol = ""
  · simp [extractColumnRef, h0]
  · simp [extractColumnRef, h0]
    exact h

lemma analyzeCheck_opaque {e : Option WNode} {c : String}
    (h1 : isRangeCheck e c = false) (h2 : isEnumCheck e c = false)
    (h3 : isPatternCheck e c = false) : analyzeCheck e c = none := by
  simp [analyzeCheck, h1, h2, h3]

lemma isRangeCheck_cmp (op lcol c : String) (r : Option WNode)
    (h : lcol ≠ c) : isRangeCheck (some (cmpExpr op lcol r)) c = false := by
  have hcol := extractColumnRef_single_ne h
  by_cases hop : op = ""
  · simp [isRangeCheck, cmpExpr, unwrapExpr, getOperatorName, hop,
      UNode.boolopF]
  · simp only [isRangeCheck, cmpExpr, unwrapExpr, getOperatorName,
      List.head?, UNode.lexprF, UNode.boolopF, ne_eq, hop,
      not_false_eq_true, if_true]
    split_ifs with hd hb
    · simpa using hcol
    · exact hb.elim
    · rfl

lemma isEnumCheck_cmp (op lcol c : String) (r : Option WNode) :
    isEnumCheck (some (cmpExpr op lcol r)) c = false := by
  by_cases hop : op = "" <;>
    simp [isEnumCheck, cmpExpr, unwrapExpr, UNode.kindF, UNode.boolopF,
      rexprIsList, UNode.rexprF, hop]

lemma isPatternCheck_cmp (op lcol c : String) (r : Option WNode)
    (h : lcol ≠ c) : isPatternCheck (some (cmpExpr op lcol r)) c = false := by
  have hcol := extractColumnRef_single_ne h
  by_cases hop : op = ""
  · simp [isPatternCheck, cmpExpr, unwrapExpr, getOperatorName, hop]
  · simp only [isPatternCheck, cmpExpr, unwrapExpr, getOperatorName,
      List.head?, UNode.lexprF, ne_eq, hop, not_false_eq_true, if_true]
    split_ifs with hd
    · simpa using hcol
    · rfl

lemma isRangeCheck_in (lcol c : String) (items : List WNode) :
    isRangeCheck (some (inExpr lcol items)) c = false := by
  simp [isRangeCheck, inExpr, unwrapExpr, getOperatorName, UNode.boolopF]

lemma isEnumCheck_in (lcol c : String) (items : List WNode)
    (h : lcol ≠ c) : isEnumCheck (some (inExpr lcol items)) c = false := by
  have hcol := extractColumnRef_single_ne h
  simp [isEnumCheck, inExpr, unwrapExpr, UNode.kindF, UNode.boolopF,
    rexprIsList, UNode.rexprF, UNode.lexprF, hcol]

lemma isPatternCheck_in (lcol c : String) (items : List WNode) :
    isPatternCheck (some (inExpr lcol items)) c = false := by
  simp [isPatternCheck, inExpr, unwrapExpr, getOperatorName]

lemma analyzeCheck_and_ignores_col (c : String) :
    analyzeCheck (some multiColAndExpr) c
      = some { minimum := some 0, maximum := some 10 } := by
  rfl

lemma resolveTypeFuel_twoCycle (schema : JsonSchema)
    (p1 p2 : PropertySchema) (h1 : resolveStep p1 schema = .inl p2)
    (h2 : resolveStep p2 schema = .inl p1) :
    ∀ n, resolveTypeFuel n p1 schema = none
      ∧ resolveTypeFuel n p2 schema = none := by
  intro n
  induction n with
  | zero => exact ⟨rfl, rfl⟩
  | succ k ih =>
    refine ⟨?_, ?_⟩
    · show resolveTypeFuel (k + 1) p1 schema = none
      rw [resolveTypeFuel, h1]
      exact ih.2
    · show resolveTypeFuel (k + 1) p2 schema = none
      rw [resolveTypeFuel, h2]
      exact ih.1

/-- C1 (corrected, amended form): the classifier is opaque for a
single-comparison CHECK whose compared column differs from the queried
column name (range operator, `IN` list, or pattern match alike), but
its simplified `AND_EXPR`/`OR_EXPR` detection never inspects column
identity: the two-column conjunction `a >= 0 AND b <= 10` classifies to
the range rule `minimum 0, maximum 10` for every queried column name,
so multi-column boolean expressions are NOT always opaque. -/
theorem c1_theorem :
    (∀ (op lcol c : String) (r : Option WNode), lcol ≠ c →
        analyzeCheck (some (cmpExpr op lcol r)) c = none)
    ∧ (∀ (lcol c : String) (items : List WNode), lcol ≠ c →
        analyzeCheck (some (inExpr lcol items)) c = none)
    ∧ (∀ c : String, analyzeCheck (some multiColAndExpr) c
        = some { minimum := some 0, maximum := some 10 }) :=
  ⟨fun op lcol c r h =>
      analyzeCheck_opaque (isRangeCheck_cmp op lcol c r h)
        (isEnumCheck_cmp op lcol c r) (isPatternCheck_cmp op lcol c r h)
  , fun lcol c items h =>
      analyzeCheck_opaque (isRangeCheck_in lcol c items)
        (isEnumCheck_in lcol c items h) (isPatternCheck_in lcol c items)
  , analyzeCheck_and_ignores_col⟩

/-- C1 counterexample: `analyzeCheck` on the two-column conjunction
`a >= 0 AND b <= 10` queried for column `a` returns a range rule
instead of the `null` (opaque) the claim requires. -/
theorem c1_counterexample :
    analyzeCheck (some multiColAndExpr) "a"
      = some { minimum := some 0, maximum := some 10
             , enumVals := none, pattern := none } := rfl

/-- C1 witness: the amended theorem evaluated at concrete inputs. -/
theorem c1_witness :
    ("b" ≠ ("a" : String))
    ∧ analyzeCheck (some (cmpExpr ">=" "b" (some (.aconst (.ival 5))))) "a"
        = none
    ∧ analyzeCheck (some (inExpr "b" [.aconst (.sval "x")])) "a" = none
    ∧ analyzeCheck (some multiColAndExpr) "zz"
        = some { minimum := some 0, maximum := some 10 } :=
  ⟨by decide
  , c1_theorem.1 ">=" "b" "a" (some (.aconst (.ival 5))) (by decide)
  , c1_theorem.2.1 "b" "a" [.aconst (.sval "x")] (by decide)
  , c1_theorem.2.2 "zz"⟩

/-- C4 (corrected, amended form): `extractMin` and `extractMax` apply
the strict-inequality adjustment (`k + 1` for `>`, `k - 1` for `<`)
unconditionally to every numeric bound; the functions take no column
type and defer nothing to the caller. -/
theorem c4_theorem : ∀ (lcol : String) (v : ℚ),
    extractMin (some (cmpExpr ">" lcol (some (.aconst (.fval v)))))
      = some (v + 1)
    ∧ extractMax (some (cmpExpr "<" lcol (some (.aconst (.fval v)))))
      = some (v - 1) :=
  fun _ _ => ⟨rfl, rfl⟩

/-- C4 counterexample: `price > 0.5` — a bound that can only belong
to a non-integer column — still gets the adjustment, yielding
`minimum = 1.5`. -/
theorem c4_counterexample :
    extractMin (some (cmpExpr ">" "price" (some (.aconst (.fval (1/2))))))
      = some (3/2) := by
  show some ((1 : ℚ)/2 + 1) = some (3/2)
  norm_num

/-- C5 (corrected, amended form): `extractForeignKey` never rejects a
composite foreign key; it returns a plain `ForeignKeyInfo` that keeps
the target table and only the FIRST referenced column — extra
referenced columns are ignored entirely, with no unsupported marker
(the return type has no error variant at all). -/
theorem c5_theorem : ∀ (t a1 : String) (rest : List WNode)
    (d u : Option String),
    extractForeignKey
        { contype := "CONSTR_FOREIGN", pktable := some t
        , pk_attrs := .strNode a1 :: rest
        , fk_del_action := d, fk_upd_action := u }
      = extractForeignKey
        { contype := "CONSTR_FOREIGN", pktable := some t
        , pk_attrs := [.strNode a1]
        , fk_del_action := d, fk_upd_action := u }
    ∧ (extractForeignKey
        { contype := "CONSTR_FOREIGN", pktable := some t
        , pk_attrs := .strNode a1 :: rest
        , fk_del_action := d, fk_upd_action := u }).column = a1 :=
  fun _ _ _ _ _ => ⟨rfl, rfl⟩

/-- C5 counterexample: the composite key `REFERENCES users(id, email)`
is partially represented as table `users`, column `id`. -/
theorem c5_counterexample :
    extractForeignKey compositeFkConstraint
      = { table := "users", column := "id" } := rfl

/-- C2 (corrected, amended form): `resolveType` has no cycle
detection: whenever the one-step resolution relation links two
properties into a two-cycle, the recursion never reaches a base case —
resolution fails for every recursion budget instead of detecting and
rejecting the cycle. -/
theorem c2_theorem : ∀ (schema : JsonSchema) (p1 p2 : PropertySchema),
    resolveStep p1 schema = .inl p2 → resolveStep p2 schema = .inl p1 →
    ∀ n, resolveTypeFuel n p1 schema = none :=
  fun schema p1 p2 h1 h2 n =>
    (resolveTypeFuel_twoCycle schema p1 p2 h1 h2 n).1

/-- C2 witness: the amended theorem evaluated on the concrete cyclic
document. -/
theorem c2_witness :
    resolveStep cycPropA cycSchema = .inl cycPropB
    ∧ resolveStep cycPropB cycSchema = .inl cycPropA
    ∧ resolveTypeFuel 9 cycPropA cycSchema = none :=
  ⟨rfl, rfl, c2_theorem cycSchema cycPropA cycPropB rfl rfl 9⟩

/-- C2 counterexample: on the concrete document whose `$ref` chain is
the two-cycle `t.a → t.b → t.a`, `jsonSchemaToSqlite` runs out of every
recursion budget — it loops rather than rejecting the document. -/
theorem c2_counterexample : emitterLoopsOn cycSchema := by
  intro fuel
  have h := resolveTypeFuel_twoCycle cycSchema cycPropA cycPropB rfl rfl fuel
  simp only [cycSchema] at h
  simp [jsonSchemaToSqliteFuel, tableDdl, colLine, cycSchema,
    List.mapM, List.mapM.loop, h.1]

/-- C10 (corrected, amended form): a property whose `$ref` is a
NON-EMPTY string that either does not match
`#/properties/<table>/properties/<column>` or points at a table or
column absent from the document resolves to `TEXT` without error, for
every input schema document; an empty `$ref` is JS-falsy and falls back
to the type-based mapping instead. -/
theorem c10_theorem : ∀ (schema : JsonSchema) (prop : PropertySchema)
    (r : String) (n : Nat), prop.ref = some r → r ≠ "" →
    refLookup schema r = none →
    resolveTypeFuel (n + 1) prop schema = some "TEXT" := by
  intro schema prop r n href hne hlk
  have hstep : resolveStep prop schema = .inr "TEXT" := by
    rw [refLookup] at hlk
    rcases hp : parseRef r with _ | ⟨tb, cl⟩
    · simp [resolveStep, href, jsStrTruthy, hne, hp]
    · rw [hp] at hlk
      simp only [Option.some_bind] at hlk
      simp [resolveStep, href, jsStrTruthy, hne, hp, hlk]
  rw [resolveTypeFuel, hstep]

/-- C10 witness: the amended theorem evaluated on a malformed
reference in the empty document. -/
theorem c10_witness :
    ({ ref := some "#/bogus" } : PropertySchema).ref = some "#/bogus"
    ∧ ("#/bogus" : String) ≠ ""
    ∧ refLookup {} "#/bogus" = none
    ∧ resolveTypeFuel 1 { ref := some "#/bogus" } {} = some "TEXT" :=
  ⟨rfl, by decide, rfl
  , c10_theorem {} { ref := some "#/bogus" } "#/bogus" 0 rfl (by decide) rfl⟩

/-- C10 counterexample: a property with the malformed (empty) `$ref`
and a sibling `integer` type resolves to `INTEGER`, not to the `TEXT`
the claim requires for every non-conforming `$ref`. -/
theorem c10_counterexample :
    resolveTypeFuel 3 { ref := some "", typ := some "integer" } {}
      = some "INTEGER" := rfl

lemma str_append_assoc (a b c : String) : a ++ b ++ c = a ++ (b ++ c) := by
  cases a with | mk la =>
  cases b with | mk lb =>
  cases c with | mk lc =>
  show String.mk ((la ++ lb) ++ lc) = String.mk (la ++ (lb ++ lc))
  rw [List.append_assoc]

lemma guardedClause_cons (col rest : String) :
    guardedClause col ("CHECK (" ++ (col ++ (" IS NULL OR " ++ rest))) :=
  ⟨rest, by simp [str_append_assoc]⟩

lemma guarded_json (col : String) : guardedClause col (jsonCheckClause col) := by
  refine ⟨"json_valid(" ++ col ++ "))", ?_⟩
  show "CHECK (" ++ col ++ " IS NULL OR json_valid(" ++ col ++ "))" = _
  simp only [str_append_assoc]
  rw [← str_append_assoc (" IS NULL OR ") ("json_valid(")]
  rfl

lemma arrayDepth_wrapN (n : Nat) (r : JsonSchemaType) :
    arrayDepth (wrapArrayN n r) = n + arrayDepth r := by
  induction n with
  | zero => simp [wrapArrayN]
  | succ k ih =>
    show arrayDepth (wrapArray (wrapArrayN k r)) = k + 1 + arrayDepth r
    rw [wrapArray, arrayDepth, ih]
    simp
    omega

lemma lookupKV_mem_snd {β : Type} :
    ∀ (l : List (String × β)) (k : String) (v : β),
      lookupKV l k = some v → v ∈ l.map Prod.snd := by
  intro l
  induction l with
  | nil => intro k v h; exact absurd h (by simp [lookupKV])
  | cons p rest ih =>
    intro k v h
    rw [lookupKV] at h
    split_ifs at h with he
    · simp [Option.some.inj h]
    · exact List.mem_cons_of_mem _ (ih k v h)

lemma typemap_no_array :
    ((TYPE_MAP.map (fun p => p.2.typ)).all
      (fun t => decide (t ≠ some "array"))) = true := by decide


lemma guarded_jsonArray (col : String) :
    guardedClause col (jsonArrayCheckClause col) := by
  refine ⟨"(json_valid(" ++ col ++ ") AND json_type(" ++ col
    ++ ") = 'array'))", ?_⟩
  show "CHECK (" ++ col ++ " IS NULL OR (json_valid(" ++ col
    ++ ") AND json_type(" ++ col ++ ") = 'array'))" = _
  simp only [str_append_assoc]
  rw [← str_append_assoc (" IS NULL OR ") ("(json_valid(")]
  rfl

lemma guarded_timestamp (col : String) :
    guardedClause col (timestampCheckClause col) := by
  refine ⟨"datetime(" ++ col ++ ") IS " ++ col ++ ")", ?_⟩
  show "CHECK (" ++ col ++ " IS NULL OR datetime(" ++ col ++ ") IS "
    ++ col ++ ")" = _
  simp only [str_append_assoc]
  rw [← str_append_assoc (" IS NULL OR ") ("datetime(")]
  rfl

lemma guarded_date (col : String) :
    guardedClause col (dateCheckClause col) := by
  refine ⟨"date(" ++ col ++ ") IS " ++ col ++ ")", ?_⟩
  show "CHECK (" ++ col ++ " IS NULL OR date(" ++ col ++ ") IS "
    ++ col ++ ")" = _
  simp only [str_append_assoc]
  rw [← str_append_assoc (" IS NULL OR ") ("date(")]
  rfl

lemma guarded_time (col : String) :
    guardedClause col (timeCheckClause col) := by
  refine ⟨"time(" ++ col ++ ") IS " ++ col ++ ")", ?_⟩
  show "CHECK (" ++ col ++ " IS NULL OR time(" ++ col ++ ") IS "
    ++ col ++ ")" = _
  simp only [str_append_assoc]
  rw [← str_append_assoc (" IS NULL OR ") ("time(")]
  rfl

/-- C3 (corrected, amended form): only the array-of-JSON, JSON,
timestamp, date and time validation checks synthesized by `ColumnDef`
carry the explicit `col IS NULL OR` guard; the length-bound,
boolean-domain, enum-membership and numeric precision/scale checks are
emitted without any null allowance (shown here at concrete columns),
and the emitter wires the clause builders as stated. -/
theorem c3_theorem :
    (∀ col : String,
      guardedClause col (jsonArrayCheckClause col)
      ∧ guardedClause col (jsonCheckClause col)
      ∧ guardedClause col (timestampCheckClause col)
      ∧ guardedClause col (dateCheckClause col)
      ∧ guardedClause col (timeCheckClause col))
    ∧ hasNullGuard "name" (lengthCheckClause "name" 50) = false
    ∧ hasNullGuard "flag" (boolCheckClause "flag") = false
    ∧ hasNullGuard "status" (enumCheckClause "status" ["a", "b"]) = false
    ∧ hasNullGuard "total" (numericCheckClause "total" 10 2) = false
    ∧ columnDefSynthChecks [] (some "created")
        (some { names := [.strNode "timestamp"] })
        = [timestampCheckClause "created"]
    ∧ columnDefSynthChecks [] (some "flag")
        (some { names := [.strNode "boolean"] })
        = [boolCheckClause "flag"] :=
  ⟨fun col =>
    ⟨guarded_jsonArray col, guarded_json col, guarded_timestamp col
    , guarded_date col, guarded_time col⟩
  , by decide, by decide, by decide, by decide, rfl, rfl⟩

/-- C3 counterexample: for `name VARCHAR(50)` the synthesized
validation check is exactly `CHECK (length(name) <= 50)`, which does
not begin with the `name IS NULL OR` guard the claim requires of every
synthesized type-validation check. -/
theorem c3_counterexample :
    columnDefSynthChecks [] (some "name")
        (some { names := [.strNode "varchar"]
              , typmods := [.aconst (.ival 50)] })
      = ["CHECK (length(name) <= 50)"]
    ∧ hasNullGuard "name" "CHECK (length(name) <= 50)" = false :=
  ⟨rfl, by decide⟩

lemma arrayDepth_eq_zero {j : JsonSchemaType} (h : isArrayRule j = false) :
    arrayDepth j = 0 := by
  cases j with
  | mk t f ml mo items =>
    simp only [isArrayRule, JsonSchemaType.typ, decide_eq_false_iff_not] at h
    unfold arrayDepth
    simp [h]

lemma mapType_base_typ (t : String) (tm : List WNode) :
    (mapType t tm []).typ
      = ((lookupKV TYPE_MAP (jsTrim (jsToLower t))).getD
          (scalarType "string")).typ := by
  simp only [mapType, List.length_nil, wrapArrayN]
  repeat' split
  all_goals simp [JsonSchemaType.typ]

lemma mapType_base_not_array (t : String) (tm : List WNode) :
    isArrayRule (mapType t tm []) = false := by
  rw [isArrayRule, decide_eq_false_iff_not, mapType_base_typ]
  rcases hl : lookupKV TYPE_MAP (jsTrim (jsToLower t)) with _ | v
  · simp [scalarType, JsonSchemaType.typ]
  · have hv := lookupKV_mem_snd TYPE_MAP _ v hl
    have hvt : v.typ ∈ TYPE_MAP.map (fun p => p.2.typ) := by
      rw [show (TYPE_MAP.map (fun p => p.2.typ))
        = (TYPE_MAP.map Prod.snd).map JsonSchemaType.typ by
          rw [List.map_map]; rfl]
      exact List.mem_map_of_mem _ hv
    have := List.all_eq_true.mp typemap_no_array _ hvt
    simpa using this

/-- C9 (confirmed): `mapType` wraps the base scalar rule in exactly
one array level per source array dimension: the result equals the
`bounds.length`-fold wrap of the zero-dimension mapping, the base rule
is never itself an array, and hence the nesting depth of the emitted
rule equals the source dimension count exactly. -/
theorem c9_theorem : ∀ (t : String) (typmods bounds : List WNode),
    mapType t typmods bounds
      = wrapArrayN bounds.length (mapType t typmods [])
    ∧ isArrayRule (mapType t typmods []) = false
    ∧ arrayDepth (mapType t typmods bounds) = bounds.length := by
  intro t typmods bounds
  have h1 : mapType t typmods bounds
      = wrapArrayN bounds.length (mapType t typmods []) := rfl
  have h2 := mapType_base_not_array t typmods
  refine ⟨h1, h2, ?_⟩
  rw [h1, arrayDepth_wrapN, arrayDepth_eq_zero h2]
  omega

lemma applyCheckConstraint_fields (name : String) (ie : Bool)
    (st : AddColState) (k : ColumnConstraint) :
    (applyCheckConstraint name ie st k).isRequired = st.isRequired
    ∧ (applyCheckConstraint name ie st k).isPrimaryKey = st.isPrimaryKey
    ∧ (applyCheckConstraint name ie st k).hasForeignKey = st.hasForeignKey
    ∧ (applyCheckConstraint name ie st k).prop.ref = st.prop.ref
    ∧ (applyCheckConstraint name ie st k).prop.onDelete = st.prop.onDelete
    ∧ (applyCheckConstraint name ie st k).prop.onUpdate
        = st.prop.onUpdate := by
  by_cases hie : ie = true
  · simp [applyCheckConstraint, hie]
  · rcases ha : analyzeCheck k.raw_expr name with _ | v
    · simp [applyCheckConstraint, hie, ha]
    · simp [applyCheckConstraint, hie, ha, assignValidation]

lemma applyDefaultConstraint_fields (st : AddColState)
    (k : ColumnConstraint) :
    (applyDefaultConstraint st k).isRequired = st.isRequired
    ∧ (applyDefaultConstraint st k).isPrimaryKey = st.isPrimaryKey
    ∧ (applyDefaultConstraint st k).hasForeignKey = st.hasForeignKey
    ∧ (applyDefaultConstraint st k).prop.ref = st.prop.ref
    ∧ (applyDefaultConstraint st k).prop.onDelete = st.prop.onDelete
    ∧ (applyDefaultConstraint st k).prop.onUpdate = st.prop.onUpdate := by
  rcases hs : (extractDefault k.raw_expr).simple with _ | v
  · rcases hc : (extractDefault k.raw_expr).computed with _ | cs
    · simp [applyDefaultConstraint, hs, hc]
    · by_cases he : cs = ""
      · simp [applyDefaultConstraint, hs, hc, he]
      · simp [applyDefaultConstraint, hs, hc, he]
  · simp [applyDefaultConstraint, hs]

lemma applyForeignConstraint_flags (st : AddColState)
    (k : ColumnConstraint) :
    (applyForeignConstraint st k).isRequired = st.isRequired
    ∧ (applyForeignConstraint st k).isPrimaryKey = st.isPrimaryKey
    ∧ (applyForeignConstraint st k).hasForeignKey
        = (st.hasForeignKey
            || (decide ((extractForeignKey k).table ≠ "")
                && decide ((extractForeignKey k).column ≠ "")))
    ∧ (applyForeignConstraint st k).prop.ref.isSome
        = (st.prop.ref.isSome
            || (decide ((extractForeignKey k).table ≠ "")
                && decide ((extractForeignKey k).column ≠ ""))) := by
  unfold applyForeignConstraint
  by_cases h7 : (extractForeignKey k).table ≠ ""
      ∧ (extractForeignKey k).column ≠ ""
  · rw [if_pos h7]
    refine ⟨rfl, rfl, by simp [h7.1, h7.2], ?_⟩
    have hbt : (decide ((extractForeignKey k).table ≠ "")
        && decide ((extractForeignKey k).column ≠ "")) = true := by
      simp [h7.1, h7.2]
    rw [hbt, Bool.or_true]
    rcases (extractForeignKey k).onDelete with _ | a <;>
      rcases (extractForeignKey k).onUpdate with _ | b
    · rfl
    · dsimp only
      split_ifs <;> rfl
    · dsimp only
      split_ifs <;> rfl
    · dsimp only
      split_ifs <;> rfl
  · rw [if_neg h7]
    have hb : (decide ((extractForeignKey k).table ≠ "")
        && decide ((extractForeignKey k).column ≠ "")) = false := by
      by_cases hA : (extractForeignKey k).table = ""
      · simp [hA]
      · have hB : (extractForeignKey k).column = "" := by
          by_contra hB
          exact h7 ⟨hA, hB⟩
        simp [hB]
    exact ⟨rfl, rfl, by rw [hb, Bool.or_false], by rw [hb, Bool.or_false]⟩

lemma applyConstraint_isRequired (name : String) (ie : Bool)
    (st : AddColState) (c : Option ColumnConstraint) :
    (applyConstraint name ie st c).isRequired
      = (st.isRequired || isNotNullC c) := by
  rcases c with _ | k
  · simp [applyConstraint, isNotNullC]
  · simp only [applyConstraint, isNotNullC]
    split_ifs <;>
      simp_all [(applyCheckConstraint_fields name ie st k).1,
        (applyDefaultConstraint_fields st k).1,
        (applyForeignConstraint_flags st k).1]

lemma applyConstraint_isPrimaryKey (name : String) (ie : Bool)
    (st : AddColState) (c : Option ColumnConstraint) :
    (applyConstraint name ie st c).isPrimaryKey
      = (st.isPrimaryKey || isPrimaryC c) := by
  rcases c with _ | k
  · simp [applyConstraint, isPrimaryC]
  · simp only [applyConstraint, isPrimaryC]
    split_ifs <;>
      simp_all [(applyCheckConstraint_fields name ie st k).2.1,
        (applyDefaultConstraint_fields st k).2.1,
        (applyForeignConstraint_flags st k).2.1]

lemma applyConstraint_hasForeignKey (name : String) (ie : Bool)
    (st : AddColState) (c : Option ColumnConstraint) :
    (applyConstraint name ie st c).hasForeignKey
      = (st.hasForeignKey || isValidFkC c) := by
  rcases c with _ | k
  · simp [applyConstraint, isValidFkC]
  · simp only [applyConstraint, isValidFkC]
    split_ifs <;>
      simp_all [(applyCheckConstraint_fields name ie st k).2.2.1,
        (applyDefaultConstraint_fields st k).2.2.1,
        (applyForeignConstraint_flags st k).2.2.1,
        Bool.and_assoc]

lemma applyConstraint_ref_isSome (name : String) (ie : Bool)
    (st : AddColState) (c : Option ColumnConstraint) :
    (applyConstraint name ie st c).prop.ref.isSome
      = (st.prop.ref.isSome || isValidFkC c) := by
  rcases c with _ | k
  · simp [applyConstraint, isValidFkC]
  · simp only [applyConstraint, isValidFkC]
    split_ifs <;>
      simp_all [(applyCheckConstraint_fields name ie st k).2.2.2.1,
        (applyDefaultConstraint_fields st k).2.2.2.1,
        (applyForeignConstraint_flags st k).2.2.2,
        Bool.and_assoc]

lemma constrFold_flags (name : String) (ie : Bool)
    (cs : List (Option ColumnConstraint)) : ∀ st : AddColState,
    ((cs.foldl (applyConstraint name ie) st).isRequired
        = (st.isRequired || cs.any isNotNullC))
    ∧ ((cs.foldl (applyConstraint name ie) st).isPrimaryKey
        = (st.isPrimaryKey || cs.any isPrimaryC))
    ∧ ((cs.foldl (applyConstraint name ie) st).hasForeignKey
        = (st.hasForeignKey || cs.any isValidFkC))
    ∧ ((cs.foldl (applyConstraint name ie) st).prop.ref.isSome
        = (st.prop.ref.isSome || cs.any isValidFkC)) := by
  induction cs with
  | nil => intro st; simp
  | cons c rest ih =>
    intro st
    have hr := ih (applyConstraint name ie st c)
    simp only [List.foldl_cons, List.any_cons]
    exact ⟨by rw [hr.1, applyConstraint_isRequired, Bool.or_assoc]
         , by rw [hr.2.1, applyConstraint_isPrimaryKey, Bool.or_assoc]
         , by rw [hr.2.2.1, applyConstraint_hasForeignKey, Bool.or_assoc]
         , by rw [hr.2.2.2, applyConstraint_ref_isSome, Bool.or_assoc]⟩

lemma addColumn_required (reg : List (String × List String))
    (ts : TableSchema) (col : ColDef) :
    (addColumn reg ts col).required
      = ts.required
        ++ (if hasNotNull col ∧ ¬ hasPrimary col then [col.colname]
            else []) := by
  have h := constrFold_flags col.colname
    (initialProp reg (extractTypeName col.typeName)
      ((col.typeName.map (·.typmods)).getD [])
      ((col.typeName.map (·.arrayBounds)).getD [])).2
    col.constraints
    { prop := (initialProp reg (extractTypeName col.typeName)
        ((col.typeName.map (·.typmods)).getD [])
        ((col.typeName.map (·.arrayBounds)).getD [])).1 }
  simp only [addColumn, h.1, h.2.1, Bool.false_or, hasNotNull, hasPrimary]
  split_ifs <;> simp

/-- C6 (confirmed): the required-field list produced by
`convertCreateStmt` is exactly the names of the `ColumnDef` elements
that carry a `NOT NULL` constraint and no primary-key constraint, in
declaration order; in particular a column that is both `NOT NULL` and
`PRIMARY KEY` never appears in it. -/
theorem c6_theorem : ∀ (reg : List (String × List String))
    (tableElts : List (Option ColDef)),
    (convertCreateStmt reg tableElts).required
      = ((tableElts.filterMap id).filter
          (fun col => hasNotNull col && ! hasPrimary col)).map
          (·.colname) := by
  intro reg tableElts
  suffices h : ∀ ts : TableSchema,
      ((tableElts.foldl
          (fun ts elt => match elt with
            | some col => addColumn reg ts col
            | none => ts) ts).required
        = ts.required
          ++ ((tableElts.filterMap id).filter
              (fun col => hasNotNull col && ! hasPrimary col)).map
              (·.colname)) by
    simpa [convertCreateStmt] using h {}
  induction tableElts with
  | nil => intro ts; simp
  | cons elt rest ih =>
    intro ts
    rcases elt with _ | col
    · simpa using ih ts
    · simp only [List.foldl_cons, List.filterMap_cons]
      rw [ih (addColumn reg ts col), addColumn_required]
      by_cases hc : hasNotNull col ∧ ¬ hasPrimary col
      · have hb : (hasNotNull col && ! hasPrimary col) = true := by
          simp [hc.1, eq_false_of_ne_true hc.2]
        rw [if_pos hc]
        simp [List.filter_cons, hb]
      · have hb : (hasNotNull col && ! hasPrimary col) = false := by
          cases hN : hasNotNull col
          · simp
          · cases hP : hasPrimary col
            · exact absurd ⟨by simp [hN], by simp [hP]⟩ hc
            · simp [hP]
        rw [if_neg hc]
        simp [List.filter_cons, hb]


lemma lookupKV_putKV {β : Type} :
    ∀ (l : List (String × β)) (k : String) (v : β),
      lookupKV (putKV l k v) k = some v := by
  intro l k v
  induction l with
  | nil => simp [putKV, lookupKV]
  | cons p rest ih =>
    by_cases h : p.1 = k
    · simp [putKV, h, lookupKV]
    · simp [putKV, h, lookupKV, ih]

lemma initialProp_actions (reg : List (String × List String))
    (pgType : String) (typmods arrayBounds : List WNode) :
    (initialProp reg pgType typmods arrayBounds).1.onDelete = none
    ∧ (initialProp reg pgType typmods arrayBounds).1.onUpdate = none := by
  unfold initialProp
  split_ifs with he
  · exact ⟨rfl, rfl⟩
  · dsimp only
    rcases mapType pgType typmods arrayBounds with ⟨ty, fo, ml, mo, it⟩
    dsimp only [JsonSchemaType.typ, JsonSchemaType.format,
      JsonSchemaType.maxLength, JsonSchemaType.multipleOf,
      JsonSchemaType.items]
    rcases fo with _ | f <;> rcases ml with _ | ml <;>
      rcases mo with _ | mo <;> rcases it with _ | it <;>
      (dsimp only
       first
         | exact ⟨rfl, rfl⟩
         | (split_ifs <;> exact ⟨rfl, rfl⟩))

lemma applyConstraint_foreign (name : String) (ie : Bool)
    (st : AddColState) (k : ColumnConstraint)
    (h : k.contype = "CONSTR_FOREIGN") :
    applyConstraint name ie st (some k) = applyForeignConstraint st k := by
  simp [applyConstraint, h]

/-- C7 (corrected, amended form): for every column with a foreign-key
constraint whose extracted target table and referenced column are both
non-empty, the emitted property carries a `$ref` and has no `type`,
`format` or `maxLength` key alongside it. -/
theorem c7_theorem : ∀ (reg : List (String × List String))
    (ts : TableSchema) (col : ColDef),
    col.constraints.any isValidFkC = true →
    ∃ p : PropertySchema,
      lookupKV (addColumn reg ts col).properties col.colname = some p
      ∧ p.typ = none ∧ p.format = none ∧ p.maxLength = none
      ∧ p.ref.isSome = true := by
  intro reg ts col hfk
  simp only [addColumn]
  have h := constrFold_flags col.colname
    (initialProp reg (extractTypeName col.typeName)
      ((col.typeName.map (·.typmods)).getD [])
      ((col.typeName.map (·.arrayBounds)).getD [])).2
    col.constraints
    { prop := (initialProp reg (extractTypeName col.typeName)
        ((col.typeName.map (·.typmods)).getD [])
        ((col.typeName.map (·.arrayBounds)).getD [])).1 }
  have hfk2 : (col.constraints.foldl
      (applyConstraint col.colname
        (initialProp reg (extractTypeName col.typeName)
          ((col.typeName.map (·.typmods)).getD [])
          ((col.typeName.map (·.arrayBounds)).getD [])).2)
      { prop := (initialProp reg (extractTypeName col.typeName)
          ((col.typeName.map (·.typmods)).getD [])
          ((col.typeName.map (·.arrayBounds)).getD [])).1 }).hasForeignKey
      = true := by
    rw [h.2.2.1]
    simp [hfk]
  rw [if_pos hfk2]
  refine ⟨_, lookupKV_putKV _ _ _, rfl, rfl, rfl, ?_⟩
  dsimp only
  rw [h.2.2.2]
  simp [hfk]

/-- C7 counterexample: the column `user_id INTEGER REFERENCES users`
(no referenced column list) carries a foreign-key constraint, yet its
emitted property has no `$ref` at all and keeps its `integer` type — so
the claim fails as stated for every column with a foreign-key
constraint. -/
theorem c7_counterexample :
    lookupKV (addColumn [] {} fkNoColDef).properties "user_id"
      = some { typ := some "integer" } := rfl

/-- C7 witness: the amended theorem evaluated on
`user_id INTEGER REFERENCES users(id)`. -/
theorem c7_witness :
    validFkColDef.constraints.any isValidFkC = true
    ∧ (∃ p : PropertySchema,
        lookupKV (addColumn [] {} validFkColDef).properties "user_id"
          = some p
        ∧ p.typ = none ∧ p.format = none ∧ p.maxLength = none
        ∧ p.ref.isSome = true) :=
  ⟨rfl, c7_theorem [] {} validFkColDef rfl⟩

/-- C8 (confirmed): when an `ON DELETE` or `ON UPDATE` action code is
absent or equal to the `no action` sentinel `a`, the deparser emits a
foreign-key clause consisting only of `REFERENCES`, the quoted table
name and the referenced column list — no action fragment — and the
declarative-schema converter leaves the `$onDelete`/`$onUpdate` keys of
the column property unset. -/
theorem c8_theorem : ∀ (d u : Option String),
    (d = none ∨ d = some "a") → (u = none ∨ u = some "a") →
    (∀ (quote : String → String) (relname : String) (attrs : List WNode),
      constraintForeignParts quote relname attrs d u
        = ["REFERENCES", quote relname]
          ++ (if attrs.isEmpty then []
              else ["(" ++ String.intercalate ", " (svalsOf attrs) ++ ")"]))
    ∧ (∀ (reg : List (String × List String)) (ts : TableSchema)
        (colname : String) (tn : Option TypeNameNode) (t c : String),
        ∃ p : PropertySchema,
          lookupKV (addColumn reg ts
              { colname := colname, typeName := tn,
                constraints := [some { contype := "CONSTR_FOREIGN",
                                       pktable := some t,
                                       pk_attrs := [.strNode c],
                                       fk_del_action := d,
                                       fk_upd_action := u }] }).properties
            colname = some p
          ∧ p.onDelete = none ∧ p.onUpdate = none) := by
  intro d u hd hu
  constructor
  · intro quote relname attrs
    rcases hd with hd | hd <;> rcases hu with hu | hu <;>
      subst hd <;> subst hu <;>
      simp [constraintForeignParts, fkActionParts]
  · intro reg ts colname tn t c
    have hact := initialProp_actions reg (extractTypeName tn)
      ((tn.map (·.typmods)).getD []) ((tn.map (·.arrayBounds)).getD [])
    simp only [addColumn, List.foldl_cons, List.foldl_nil]
    rw [applyConstraint_foreign _ _ _ _ rfl]
    unfold applyForeignConstraint
    by_cases h7 : (extractForeignKey { contype := "CONSTR_FOREIGN",
                                       pktable := some t,
                                       pk_attrs := [.strNode c],
                                       fk_del_action := d,
                                       fk_upd_action := u
                                       : ColumnConstraint }).table ≠ ""
        ∧ (extractForeignKey { contype := "CONSTR_FOREIGN",
                               pktable := some t,
                               pk_attrs := [.strNode c],
                               fk_del_action := d,
                               fk_upd_action := u
                               : ColumnConstraint }).column ≠ ""
    · rw [if_pos h7]
      rcases hd with hd | hd <;> rcases hu with hu | hu <;>
        subst hd <;> subst hu <;>
        refine ⟨_, lookupKV_putKV _ _ _, ?_, ?_⟩ <;>
        (dsimp only [extractForeignKey]
         try simp only [show mapFkAction "a" = some "no action" from rfl]
         try dsimp only
         try split_ifs
         all_goals simp [hact.1, hact.2])
    · rw [if_neg h7]
      refine ⟨_, lookupKV_putKV _ _ _, ?_, ?_⟩ <;>
        split_ifs <;> simp [hact.1, hact.2]

/-- C8 witness: the theorem evaluated at action code `a` on both
output paths. -/
theorem c8_witness :
    ((some "a" : Option String) = none
      ∨ (some "a" : Option String) = some "a")
    ∧ constraintForeignParts (fun s => s) "users" [.strNode "id"]
        (some "a") (some "a") = ["REFERENCES", "users", "(id)"]
    ∧ (∃ p : PropertySchema,
        lookupKV (addColumn [] {}
            { colname := "user_id", typeName := none,
              constraints := [some { contype := "CONSTR_FOREIGN",
                                     pktable := some "users",
                                     pk_attrs := [.strNode "id"],
                                     fk_del_action := some "a",
                                     fk_upd_action := some "a" }] }).properties "user_id"
          = some p
        ∧ p.onDelete = none ∧ p.onUpdate = none) := by
  have h := c8_theorem (some "a") (some "a") (Or.inr rfl) (Or.inr rfl)
  refine ⟨Or.inr rfl, ?_, h.2 [] {} "user_id" none "users" "id"⟩
  rw [h.1 (fun s => s) "users" [.strNode "id"]]
  rfl


end PgSqlite
